import Mathlib

/-!
Shallow embedding of `contrib/devtools/previous-release.py`, a script that
downloads or builds previous Bitcoin Core releases, together with proofs of
the behavioural claims made by its specification.

External effects (subprocess invocations, filesystem mutations) are recorded
as an explicit trace of events; the results of external commands come from a
"world" record supplied to each function, so every definition is executable.
-/

/-- Result of running a piece of Python code: either a normal return value or
an uncaught exception (identified by the exception class name). -/
inductive Outcome (α : Type) where
  | ok : α → Outcome α
  | exc : String → Outcome α
  deriving DecidableEq, Repr

/-- Observable external effects performed by the script: subprocess
invocations (`subprocess.call` / `Popen` argument vectors), and filesystem
operations (`shutil.rmtree`, `Path.mkdir`, `Path.unlink`, `Path.rename`). -/
inductive Ev where
  | cmd : List String → Ev
  | rmtree : String → Ev
  | mkdirEv : String → Ev
  | unlink : String → Ev
  | rename : String → String → Ev
  deriving DecidableEq, Repr

/-- Check of `c.isDigit` for every character of the list (the `[0-9]+` character
class of the regular expression on line 42). -/
def digitsOnly (l : List Char) : Bool :=
  l.all Char.isDigit

/-- Predicate `rcNumShape rest` holds when `rest` is `'c'` followed by a non-empty
run of digits and nothing else, i.e. `'r' :: rest` is an `rc[0-9]+$` match
reaching the end of the string. -/
def rcNumShape : List Char → Bool
  | 'c' :: d :: ds => digitsOnly (d :: ds)
  | _ => false

/-- Split `tag` as `pre ++ ('r' :: 'c' :: ds)` where `ds` is a non-empty
run of digits reaching the end of the string, choosing the longest possible
`pre` (the split the greedy `(.*)` of `v(.*)(rc[0-9]+)$` settles on).
Returns `none` when no such split exists. -/
def lastRcSplit : List Char → Option (List Char × List Char)
  | [] => none
  | c :: rest =>
    match lastRcSplit rest with
    | some (pre, g) => some (c :: pre, g)
    | none =>
      if c = 'r' ∧ rcNumShape rest = true then some ([], c :: rest) else none

/-- Drop characters up to and including the first `'v'`; `none` when the
list has no `'v'`.  Models where `re.search` anchors the leading `v` of the
pattern (leftmost match). -/
def dropToV : List Char → Option (List Char)
  | [] => none
  | c :: rest => if c = 'v' then some rest else dropToV rest

/-- Region of the string in which `v(.*)(rc[0-9]+)$` can match under
Python semantics: `$` matches at the end of the string or just before one
trailing newline (so one trailing `'\n'` is dropped), and none of `v`,
`.` (which does not match a newline), `rc`, `[0-9]` can consume a newline,
so the whole match lies in the text after the last remaining newline. -/
def regexTail (tag : List Char) : List Char :=
  let body := if tag.getLast? = some '\n' then tag.dropLast else tag
  (body.reverse.takeWhile (fun c => c ≠ '\n')).reverse

/-- Model of `re.compile('v(.*)(rc[0-9]+)$').search(tag)` (line 42):
`some (g1, g2)` with the two capture groups when the pattern matches,
`none` otherwise.  Under Python semantics the match is confined to
`regexTail tag`; within it, the match needs some `'v'` occurring before a
trailing `rc<digits>` run, `g2` is that trailing run (greedy `.*` pushes
it as far right as possible) and `g1` is everything between the first
`'v'` and `g2`. -/
def rcSearch (tag : List Char) : Option (List Char × List Char) :=
  match lastRcSplit (regexTail tag) with
  | none => none
  | some (pre, g2) =>
    match dropToV pre with
    | none => none
    | some g1 => some (g1, g2)

/-- Value of `bin_path` as computed on lines 41-45: `bin/bitcoin-core-<tag[1:]>`,
replaced by `bin/bitcoin-core-<g1>/test.<g2>` when the rc regular
expression matches. -/
def binPath (tag : List Char) : List Char :=
  match rcSearch tag with
  | some (g1, g2) =>
    ("bin/bitcoin-core-".toList ++ g1) ++ ("/test.".toList ++ g2)
  | none => "bin/bitcoin-core-".toList ++ tag.drop 1

/-- String-valued wrapper of `binPath`, used when assembling URLs. -/
def binPathS (tag : String) : String :=
  (binPath tag.toList).asString

/-- Python `tag[1:]`: the tag with its first character removed. -/
def tagTail (tag : String) : String :=
  (tag.toList.drop 1).asString

/-- The claim's phrase "tag of the form `v<version>rc<N>` (N a digit
string)": the tag is literally `v`, then an arbitrary version string, then
`rc`, then a non-empty run of digits ending the tag. -/
def isRcForm (tag : List Char) : Prop :=
  ∃ ver N, digitsOnly N = true ∧ N ≠ [] ∧ tag = 'v' :: (ver ++ ('r' :: 'c' :: N))

/-- Glob matching as `fnmatch.fnmatch` performs it for the patterns used by
`check_host` (literal characters and `*` wildcards; no `?` or classes occur
in the source's patterns). -/
def globMatch : List Char → List Char → Bool
  | [], s => s.isEmpty
  | '*' :: ps, s => s.tails.any (fun t => globMatch ps t)
  | _ :: _, [] => false
  | p :: ps, c :: s => (p = c) && globMatch ps s

/-- Model of `re.search(needle, line)` for the needle actually used (a hexadecimal
digest, so a regex without metacharacters): plain substring containment. -/
def substrB (needle hay : String) : Bool :=
  decide (needle.toList <:+: hay.toList)

/-- Python `str.split()` with no separator for the strings built here
(space-separated words, empty pieces discarded), used on line 137 on each
command string. -/
def pySplit (s : String) : List String :=
  (s.splitOn " ").filter (fun x => x ≠ "")

/-- Python `open(file, mode, encoding=...)`: combining a binary mode with an
explicit encoding raises `ValueError` ("binary mode doesn't take an encoding
argument"); otherwise the call succeeds. -/
def pyOpen (mode : String) (encoding : Option String) : Outcome Unit :=
  if mode.toList.contains 'b' && encoding.isSome then Outcome.exc "ValueError"
  else Outcome.ok ()

/-- The manifest scan of lines 82-88: walk the lines in order; stop quietly
when a line contains the digest; report failure (`true`) when the sentinel
`lastline` is reached without a match first. -/
def scanFails (tarballHash lastline : String) : List String → Bool
  | [] => false
  | line :: rest =>
    if substrB tarballHash line then false
    else if lastline = line then true
    else scanFails tarballHash lastline rest

/-- The command-line options of the script (`argparse` flags, lines
194-206), plus the fields `main`/`check_host` attach to `args` at runtime
(`platform`, `host`, `config_flags`). -/
structure Args where
  functional_tests : Bool
  remove_dir : Bool
  depends : Bool
  download_binary : Bool
  target_dir : String
  platform : String
  host : String
  config_flags : String
  deriving Repr

/-- External-world results consumed by one `download_binary` call: whether
the tag directory pre-exists, the outcome of the `curl -I` probe, the two
download return codes, the digest the script would compute, the manifest
lines, and the `tar` return code. -/
structure DWorld where
  dirExists : Bool
  probe404 : Bool
  curlTarballRet : Nat
  curlSumsRet : Nat
  sha256Hex : String
  manifestLines : List String
  tarRet : Nat
  deriving Repr

/-- Embedding of `download_binary(tag, args)` (lines 34-97).  Returns the Python outcome
(normal return value or uncaught exception) together with the trace of
external effects, in order.  The `open` on line 72 passes `encoding` with
mode `"rb"`; the code from line 73 on is embedded behind that call. -/
def download_binary (w : DWorld) (args : Args) (tag : String) :
    Outcome Nat × List Ev :=
  if w.dirExists && !args.remove_dir then
    (Outcome.ok 0, [])
  else
    let evs0 := (if w.dirExists then [Ev.rmtree tag] else []) ++ [Ev.mkdirEv tag]
    let bin_path := binPathS tag
    let tarball := "bitcoin-" ++ tagTail tag ++ "-" ++ args.platform ++ ".tar.gz"
    let sha256Sums := "SHA256SUMS-" ++ tagTail tag ++ ".asc"
    let tarballUrl := "https://bitcoincore.org/" ++ bin_path ++ "/" ++ tarball
    let sha256SumsUrl := "https://bitcoincore.org/" ++ bin_path ++ "/SHA256SUMS.asc"
    let evs1 := evs0 ++ [Ev.cmd ["curl", "-I", tarballUrl]]
    if w.probe404 then
      (Outcome.ok 1, evs1)
    else
      let evs2 := evs1 ++ [Ev.cmd ["curl", "-O", tarballUrl]]
      if w.curlTarballRet ≠ 0 then (Outcome.ok w.curlTarballRet, evs2)
      else
        let evs3 := evs2 ++ [Ev.cmd ["curl", "-o", sha256Sums, sha256SumsUrl]]
        if w.curlSumsRet ≠ 0 then (Outcome.ok w.curlSumsRet, evs3)
        else
          match pyOpen "rb" (some "utf-8") with
          | Outcome.exc e => (Outcome.exc e, evs3)
          | Outcome.ok _ =>
            let tarballHash := w.sha256Hex
            let lst := w.manifestLines
            match lst.getLast? with
            | none => (Outcome.exc "IndexError", evs3)
            | some lastline =>
              if scanFails tarballHash lastline lst then
                (Outcome.ok 1, evs3 ++ [Ev.unlink tarball])
              else
                let evs4 := evs3 ++ [Ev.cmd ["tar", "-zxf", tarball, "-C", tag,
                  "--strip-components=1", "bitcoin-" ++ tagTail tag]]
                if w.tarRet ≠ 0 then (Outcome.ok w.tarRet, evs4)
                else (Outcome.ok 0, evs4 ++ [Ev.unlink tarball, Ev.unlink sha256Sums])

/-- Mutable interpreter state relevant to `pushd`: the current working
directory, plus the persistent effect trace (which a `finally` block does
not roll back). -/
structure PyState where
  cwd : String
  events : List Ev
  deriving Repr

/-- Embedding of the `pushd` context manager (lines 25-32): remember `os.getcwd()`,
`os.chdir(new_dir)`, run the body, and `os.chdir(previous_dir)` in a
`finally` block — so the restore happens whether the body returns a value,
returns early, or raises (the `Outcome` the body produced is passed
through unchanged). -/
def pushd {α : Type} (new_dir : String) (body : PyState → Outcome α × PyState)
    (s : PyState) : Outcome α × PyState :=
  let previous_dir := s.cwd
  let r := body { cwd := new_dir, events := s.events }
  (r.1, { cwd := previous_dir, events := r.2.events })

/-- External-world results consumed by one `build_release` call: whether the
tag directory pre-exists, the output of `git tag -l`, the return codes of
each external command, the `HOST` environment variable, the output of
`./config.guess`, and the working directory (`os.getcwd()` on line 129). -/
structure BWorld where
  dirExists : Bool
  gitTagOutput : String
  cloneRet : Nat
  checkoutRet : Nat
  dependsMakeRet : Nat
  envHost : Option String
  configGuess : String
  pwd : String
  autogenRet : Nat
  configureRet : Nat
  makeRet : Nat
  deriving Repr

/-- Lines 113-148 of `build_release`: the body of `with pushd(tag)` after a
successful clone — checkout, optional depends build, configure/make, and
relocation of the binaries.  Only outcome and effect trace are tracked; the
working-directory discipline itself is the `pushd` combinator above. -/
def buildInTag (w : BWorld) (args : Args) (tag : String) : Outcome Nat × List Ev :=
  let e1 := [Ev.cmd ["git", "checkout", tag]]
  if w.checkoutRet ≠ 0 then (Outcome.ok w.checkoutRet, e1)
  else
    let no_qt := if args.functional_tests then "NO_QT=1" else ""
    if args.depends && decide (w.dependsMakeRet ≠ 0) then
      (Outcome.ok w.dependsMakeRet, e1 ++ [Ev.cmd ["make", no_qt]])
    else
      let host := if args.depends then
          (match w.envHost with
           | some h => h
           | none => w.configGuess)
        else args.host
      let dependsEvs := if args.depends then
          [Ev.cmd ["make", no_qt], Ev.cmd ["./config.guess"]]
        else []
      let e2 := e1 ++ dependsEvs
      let config_flags := "--prefix=" ++ w.pwd ++ "/depends/" ++ host ++ " "
        ++ args.config_flags
      let e3 := e2 ++ [Ev.cmd (pySplit "./autogen.sh")]
      if w.autogenRet ≠ 0 then (Outcome.ok w.autogenRet, e3)
      else
        let e4 := e3 ++ [Ev.cmd (pySplit ("./configure " ++ config_flags))]
        if w.configureRet ≠ 0 then (Outcome.ok w.configureRet, e4)
        else
          let e5 := e4 ++ [Ev.cmd (pySplit "make")]
          if w.makeRet ≠ 0 then (Outcome.ok w.makeRet, e5)
          else
            let e6 := e5 ++ [Ev.mkdirEv "bin",
              Ev.rename "src/bitcoind" "bin/bitcoind",
              Ev.rename "src/bitcoin-cli" "bin/bitcoin-cli",
              Ev.rename "src/bitcoin-tx" "bin/bitcoin-tx"]
            if args.functional_tests then
              (Outcome.ok 0, e6 ++ [Ev.rename "src/qt/bitcoin-qt" "bin/bitcoin-qt"])
            else (Outcome.ok 0, e6)

/-- Embedding of `build_release(tag, args)` (lines 99-148): optional removal of an
existing directory, the `git tag -l` existence check — performed only when
the directory does not (any longer) exist — and then, unconditionally, the
clone followed by the scoped build steps. -/
def build_release (w : BWorld) (args : Args) (tag : String) :
    Outcome Nat × List Ev :=
  let evs0 := if args.remove_dir && w.dirExists then [Ev.rmtree tag] else []
  let dirNow : Bool := if args.remove_dir then false else w.dirExists
  let tagCheck : Option (Outcome Nat × List Ev) :=
    if !dirNow then
      if w.gitTagOutput = "" then
        some (Outcome.ok 1, evs0 ++ [Ev.cmd ["git", "tag", "-l", tag]])
      else none
    else none
  match tagCheck with
  | some r => r
  | none =>
    let evsPre := evs0 ++ (if !dirNow then [Ev.cmd ["git", "tag", "-l", tag]] else [])
    let tailP := if w.cloneRet ≠ 0 then (Outcome.ok w.cloneRet, ([] : List Ev))
      else buildInTag w args tag
    (tailP.1,
     evsPre ++ Ev.cmd ["git", "clone", "https://github.com/bitcoin/bitcoin", tag]
       :: tailP.2)

/-- Embedding of `check_host(args)` (lines 150-165) given the already-determined host
triple: in binary-download mode fold the ordered pattern table, the last
matching pattern winning, and fail (return 1) when no pattern matched.
Returns the status together with the platform tag chosen. -/
def check_host (host : String) (download_binary_mode : Bool) : Nat × String :=
  if download_binary_mode then
    let platforms : List (String × String) :=
      [("x86_64-*-linux*", "x86_64-linux-gnu"),
       ("x86_64-apple-darwin*", "osx64")]
    let platform := platforms.foldl
      (fun acc pt => if globMatch pt.1.toList host.toList then pt.2 else acc) ""
    if platform = "" then (1, "") else (0, platform)
  else (0, "")

/-- The per-tag dispatch loop of `main` (lines 178-181 and 187-190): run the
tags in order, stop at the first non-zero status and return it, otherwise
return 0.  Also returns the list of tags actually processed. -/
def runTags (f : String → Nat) : List String → Nat × List String
  | [] => (0, [])
  | t :: rest =>
    let r := f t
    if r ≠ 0 then (r, [t])
    else
      let p := runTags f rest
      (p.1, t :: p.2)

/-- Embedding of `main` in binary-download mode (lines 173-182): run `check_host` first
and return its status without entering the download loop when it fails;
otherwise run the per-tag loop.  `f` gives each tag's `download_binary`
status. -/
def mainBinaryMode (host : String) (f : String → Nat) (tags : List String) :
    Nat × List String :=
  let c := check_host host true
  if c.1 ≠ 0 then (c.1, [])
  else runTags f tags

/-! ## Concrete fixtures used by counterexamples and witnesses -/

/-- Options of a plain `--download-binary` run on a Linux host. -/
def argsBinEx : Args :=
  { functional_tests := false, remove_dir := false, depends := false,
    download_binary := true, target_dir := "releases",
    platform := "x86_64-linux-gnu", host := "x86_64-unknown-linux-gnu",
    config_flags := "" }

/-- Options of a plain source-build run. -/
def argsBuildEx : Args :=
  { argsBinEx with download_binary := false }

/-- Options of a source-build run with `--depends`. -/
def argsDependsEx : Args :=
  { argsBuildEx with depends := true }

/-- Builder world where the tag directory already exists and every external
command succeeds. -/
def bwCached : BWorld :=
  { dirExists := true, gitTagOutput := "v0.20.1", cloneRet := 0,
    checkoutRet := 0, dependsMakeRet := 0, envHost := none,
    configGuess := "x86_64-pc-linux-gnu", pwd := "/releases/v0.20.1",
    autogenRet := 0, configureRet := 0, makeRet := 0 }

/-- Builder world for a tag that neither exists locally nor is listed by
`git tag -l`. -/
def bwUnknown : BWorld :=
  { bwCached with dirExists := false, gitTagOutput := "" }

/-- Builder world for a fresh known tag with all commands succeeding. -/
def bwFresh : BWorld :=
  { bwCached with dirExists := false }

/-- Fetcher world where the tag directory already exists. -/
def dwCached : DWorld :=
  { dirExists := true, probe404 := false, curlTarballRet := 0,
    curlSumsRet := 0, sha256Hex := "0123abcd",
    manifestLines := ["0123abcd  bitcoin-0.20.1-x86_64-linux-gnu.tar.gz"],
    tarRet := 0 }

/-- Fetcher world where both downloads succeed and the digest the script
would compute occurs in no manifest line. -/
def dwNoMatch : DWorld :=
  { dwCached with
    dirExists := false,
    manifestLines := ["ffffffff  bitcoin-0.20.1-x86_64-linux-gnu.tar.gz"] }

/-- Fetcher world where both downloads succeed and the digest occurs in the
manifest, so a fetch "should" succeed end to end. -/
def dwMatch : DWorld :=
  { dwCached with dirExists := false }

/-- A per-tag status function failing exactly on the second tag. -/
def fFailV2 : String → Nat := fun t => if t = "v2" then 3 else 0

/-! ## Helper lemmas -/

theorem runTags_all_zero (f : String → Nat) :
    ∀ tags : List String, (∀ t ∈ tags, f t = 0) → runTags f tags = (0, tags) := by
  intro tags
  induction tags with
  | nil => intro _; rfl
  | cons t rest ih =>
    intro h
    have ht : f t = 0 := h t (List.mem_cons_self t rest)
    have hrest := ih (fun x hx => h x (List.mem_cons_of_mem t hx))
    simp [runTags, ht, hrest]

theorem runTags_first_fail (f : String → Nat) :
    ∀ (pre : List String) (t : String) (post : List String),
      (∀ p ∈ pre, f p = 0) → f t ≠ 0 →
      runTags f (pre ++ t :: post) = (f t, pre ++ [t]) := by
  intro pre
  induction pre with
  | nil =>
    intro t post _ ht
    simp [runTags, ht]
  | cons a pre ih =>
    intro t post hpre ht
    have ha : f a = 0 := hpre a (List.mem_cons_self a pre)
    have hrest := ih t post (fun x hx => hpre x (List.mem_cons_of_mem a hx)) ht
    simp [runTags, ha, hrest]

/-! ## Claims -/

/-- C8: every scoped working-directory change made through `pushd` restores
the previously current working directory on every exit path — the body is
arbitrary, so this covers bodies that return normally, return early, or
raise an exception — and the body's outcome is passed through unchanged. -/
theorem c8_pushd_restores_cwd {α : Type} (new_dir : String)
    (body : PyState → Outcome α × PyState) (s : PyState) :
    (pushd new_dir body s).2.cwd = s.cwd ∧
    (pushd new_dir body s).1 = (body { cwd := new_dir, events := s.events }).1 :=
  ⟨rfl, rfl⟩

/-- C4: host-to-platform resolution maps `x86_64-unknown-linux-gnu` to
`x86_64-linux-gnu` and `x86_64-apple-darwin20` to `osx64`; for every host
triple matching neither glob pattern, the driver in binary-download mode
stops with status 1 and processes no tag at all (so no fetch — hence no
network access — is ever attempted). -/
theorem c4_platform_resolution :
    check_host "x86_64-unknown-linux-gnu" true = (0, "x86_64-linux-gnu") ∧
    check_host "x86_64-apple-darwin20" true = (0, "osx64") ∧
    (∀ (host : String) (f : String → Nat) (tags : List String),
      globMatch "x86_64-*-linux*".toList host.toList = false →
      globMatch "x86_64-apple-darwin*".toList host.toList = false →
      mainBinaryMode host f tags = (1, [])) := by
  refine ⟨by decide, by decide, ?_⟩
  intro host f tags h1 h2
  have h1b : globMatch
      ['x', '8', '6', '_', '6', '4', '-', '*', '-', 'l', 'i', 'n', 'u', 'x', '*']
      host.data = false := h1
  have h2b : globMatch
      ['x', '8', '6', '_', '6', '4', '-', 'a', 'p', 'p', 'l', 'e', '-', 'd', 'a',
       'r', 'w', 'i', 'n', '*'] host.data = false := h2
  simp [mainBinaryMode, check_host, h1b, h2b]

/-- Closed witness for C4's universal part at a concrete unmatched triple. -/
theorem c4_platform_resolution_witness :
    mainBinaryMode "powerpc64-unknown-freebsd" (fun _ => 0) ["v0.20.1"] = (1, []) :=
  c4_platform_resolution.2.2 "powerpc64-unknown-freebsd" (fun _ => 0) ["v0.20.1"]
    (by decide) (by decide)

/-- C5: the driver's per-tag loop processes the tags in the given order; if
every tag's operation returns 0 it returns 0 after processing all tags, and
otherwise it returns the status of the first failing tag, having processed
exactly the tags up to and including that one and never any later tag. -/
theorem c5_first_failure_stops (f : String → Nat) (tags : List String) :
    ((∀ t ∈ tags, f t = 0) → runTags f tags = (0, tags)) ∧
    (∀ (pre : List String) (t : String) (post : List String),
      tags = pre ++ t :: post → (∀ p ∈ pre, f p = 0) → f t ≠ 0 →
      runTags f tags = (f t, pre ++ [t])) := by
  constructor
  · exact runTags_all_zero f tags
  · intro pre t post heq hpre ht
    subst heq
    exact runTags_first_fail f pre t post hpre ht

/-- Closed witness for C5 at a concrete tag list whose second tag fails. -/
theorem c5_first_failure_stops_witness :
    runTags fFailV2 ["v1", "v2", "v3"] = (3, ["v1", "v2"]) := by
  have h := (c5_first_failure_stops fFailV2 ["v1", "v2", "v3"]).2
    ["v1"] "v2" ["v3"] rfl (by decide) (by decide)
  simpa [fFailV2] using h

/-- C6: in source-build mode, when the tag directory does not already exist
and `git tag -l` reports no such tag, the builder returns 1 after only the
tag-list query — in particular it never invokes a clone. -/
theorem c6_unknown_tag_no_clone (w : BWorld) (args : Args) (tag : String)
    (hdir : w.dirExists = false) (hout : w.gitTagOutput = "") :
    build_release w args tag = (Outcome.ok 1, [Ev.cmd ["git", "tag", "-l", tag]]) ∧
    ∀ c, Ev.cmd ("git" :: "clone" :: c) ∉ (build_release w args tag).2 := by
  have hmain : build_release w args tag
      = (Outcome.ok 1, [Ev.cmd ["git", "tag", "-l", tag]]) := by
    simp [build_release, hdir, hout]
  refine ⟨hmain, ?_⟩
  intro c
  rw [hmain]
  simp

/-- Closed witness for C6 at a concrete unknown tag. -/
theorem c6_unknown_tag_no_clone_witness :
    build_release bwUnknown argsBuildEx "v9.99.9"
      = (Outcome.ok 1, [Ev.cmd ["git", "tag", "-l", "v9.99.9"]]) ∧
    Ev.cmd ["git", "clone", "https://github.com/bitcoin/bitcoin", "v9.99.9"]
      ∉ (build_release bwUnknown argsBuildEx "v9.99.9").2 :=
  ⟨(c6_unknown_tag_no_clone bwUnknown argsBuildEx "v9.99.9" rfl rfl).1,
   (c6_unknown_tag_no_clone bwUnknown argsBuildEx "v9.99.9" rfl rfl).2
     ["https://github.com/bitcoin/bitcoin", "v9.99.9"]⟩

theorem buildInTag_make_empty (w : BWorld) (args : Args) (tag : String)
    (hdep : args.depends = true) (hft : args.functional_tests = false)
    (hco : w.checkoutRet = 0) :
    Ev.cmd ["make", ""] ∈ (buildInTag w args tag).2 := by
  by_cases h1 : w.dependsMakeRet = 0
  · by_cases h2 : w.autogenRet = 0
    · by_cases h3 : w.configureRet = 0
      · by_cases h4 : w.makeRet = 0
        · simp [buildInTag, hco, hdep, hft, h1, h2, h3, h4]
        · simp [buildInTag, hco, hdep, hft, h1, h2, h3, h4]
      · simp [buildInTag, hco, hdep, hft, h1, h2, h3]
    · simp [buildInTag, hco, hdep, hft, h1, h2]
  · simp [buildInTag, hco, hdep, hft, h1]

/-- C10: in source-build mode with `--depends` set and functional-tests
unset, once the clone and checkout succeed the builder runs the dependency
build as the two-element command `['make', '']` — `make` with one
empty-string argument — rather than plain `make`. -/
theorem c10_depends_make_empty_arg (w : BWorld) (args : Args) (tag : String)
    (hdep : args.depends = true) (hft : args.functional_tests = false)
    (htag : w.gitTagOutput ≠ "") (hclone : w.cloneRet = 0)
    (hco : w.checkoutRet = 0) :
    Ev.cmd ["make", ""] ∈ (build_release w args tag).2 := by
  have hmem := buildInTag_make_empty w args tag hdep hft hco
  simp [build_release, htag, hclone, List.mem_append]
  tauto

/-- Closed witness for C10 at a concrete depends-build run. -/
theorem c10_depends_make_empty_arg_witness :
    Ev.cmd ["make", ""] ∈ (build_release bwFresh argsDependsEx "v0.20.1").2 :=
  c10_depends_make_empty_arg bwFresh argsDependsEx "v0.20.1" rfl rfl
    (by decide) rfl rfl

/-- C9: whenever the existence probe passes and both curl downloads return
0, the open of the tarball with mode `"rb"` plus an `encoding` argument
raises `ValueError`: `download_binary` ends in that exception instead of
returning, no checksum comparison or extraction (`tar`) is reached, and no
cleanup (`unlink`) happens. -/
theorem c9_open_raises_value_error (w : DWorld) (args : Args) (tag : String)
    (hmiss : (w.dirExists && !args.remove_dir) = false)
    (h404 : w.probe404 = false)
    (hc1 : w.curlTarballRet = 0) (hc2 : w.curlSumsRet = 0) :
    (download_binary w args tag).1 = Outcome.exc "ValueError" ∧
    (∀ c, Ev.cmd ("tar" :: c) ∉ (download_binary w args tag).2) ∧
    (∀ p, Ev.unlink p ∉ (download_binary w args tag).2) := by
  have hopen : pyOpen "rb" (some "utf-8") = Outcome.exc "ValueError" := rfl
  refine ⟨?_, ?_, ?_⟩
  · simp [download_binary, hmiss, h404, hc1, hc2, hopen]
  · intro c
    by_cases hD : w.dirExists
    · have hrm : args.remove_dir = true := by
        rw [hD] at hmiss; simpa using hmiss
      simp [download_binary, h404, hc1, hc2, hopen, hD, hrm]
    · simp [download_binary, hmiss, h404, hc1, hc2, hopen, hD]
  · intro p
    by_cases hD : w.dirExists
    · have hrm : args.remove_dir = true := by
        rw [hD] at hmiss; simpa using hmiss
      simp [download_binary, h404, hc1, hc2, hopen, hD, hrm]
    · simp [download_binary, hmiss, h404, hc1, hc2, hopen, hD]

/-- Closed witness for C9 at a concrete fetch of v0.20.1. -/
theorem c9_open_raises_value_error_witness :
    (download_binary dwMatch argsBinEx "v0.20.1").1 = Outcome.exc "ValueError" ∧
    Ev.cmd ["tar", "-zxf", "bitcoin-0.20.1-x86_64-linux-gnu.tar.gz", "-C",
        "v0.20.1", "--strip-components=1", "bitcoin-0.20.1"]
      ∉ (download_binary dwMatch argsBinEx "v0.20.1").2 ∧
    Ev.unlink "bitcoin-0.20.1-x86_64-linux-gnu.tar.gz"
      ∉ (download_binary dwMatch argsBinEx "v0.20.1").2 := by
  have h := c9_open_raises_value_error dwMatch argsBinEx "v0.20.1" rfl rfl rfl rfl
  exact ⟨h.1,
    h.2.1 ["-zxf", "bitcoin-0.20.1-x86_64-linux-gnu.tar.gz", "-C", "v0.20.1",
      "--strip-components=1", "bitcoin-0.20.1"],
    h.2.2 "bitcoin-0.20.1-x86_64-linux-gnu.tar.gz"⟩

/-- C1 counterexample: with the `v0.20.1` directory already present and the
remove-existing option unset, the builder is not a no-op — it still issues
`git clone`, refuting the claim's source-build half at a concrete input. -/
theorem c1_counterexample :
    bwCached.dirExists = true ∧ argsBuildEx.remove_dir = false ∧
    Ev.cmd ["git", "clone", "https://github.com/bitcoin/bitcoin", "v0.20.1"]
      ∈ (build_release bwCached argsBuildEx "v0.20.1").2 :=
  ⟨rfl, rfl, by decide⟩

/-- C1 as amended: for a tag whose directory already exists with removal
not requested, the binary fetcher is a no-op returning 0 (no commands at
all), while the source builder merely skips the tag-list check and still
issues `git clone` as its very first external command. -/
theorem c1_amended_cache_hit (dw : DWorld) (bw : BWorld) (args : Args)
    (tag : String) (hd : dw.dirExists = true) (hb : bw.dirExists = true)
    (hr : args.remove_dir = false) :
    download_binary dw args tag = (Outcome.ok 0, []) ∧
    (build_release bw args tag).2.head? =
      some (Ev.cmd ["git", "clone", "https://github.com/bitcoin/bitcoin", tag]) := by
  constructor
  · simp [download_binary, hd, hr]
  · simp [build_release, hb, hr]

/-- Closed witness for the amended C1 at a concrete cached tag. -/
theorem c1_amended_cache_hit_witness :
    download_binary dwCached argsBuildEx "v0.20.1" = (Outcome.ok 0, []) ∧
    (build_release bwCached argsBuildEx "v0.20.1").2.head? =
      some (Ev.cmd ["git", "clone", "https://github.com/bitcoin/bitcoin",
        "v0.20.1"]) :=
  c1_amended_cache_hit dwCached bwCached argsBuildEx "v0.20.1" rfl rfl rfl

/-- C2 (code-bug evaluation): a concrete download whose digest occurs in no
manifest line.  The fetcher does not return a failure status and delete the
tarball as the claim requires: it raises `ValueError` at the open call and
the trace contains no `unlink` of the tarball at all. -/
theorem c2_code_bug_eval :
    substrB dwNoMatch.sha256Hex
      "ffffffff  bitcoin-0.20.1-x86_64-linux-gnu.tar.gz" = false ∧
    (download_binary dwNoMatch argsBinEx "v0.20.1").1 = Outcome.exc "ValueError" ∧
    Ev.unlink "bitcoin-0.20.1-x86_64-linux-gnu.tar.gz"
      ∉ (download_binary dwNoMatch argsBinEx "v0.20.1").2 :=
  ⟨by decide, rfl, by decide⟩

/-- C3 (code-bug evaluation): a concrete download whose digest does occur
in the manifest and whose `tar` would succeed, i.e. a fetch that per the
claim should extract and clean up.  The fetcher never gets there: it raises
`ValueError` before the checksum comparison, so no extraction runs and the
tarball and manifest files are never deleted. -/
theorem c3_code_bug_eval :
    substrB dwMatch.sha256Hex
      "0123abcd  bitcoin-0.20.1-x86_64-linux-gnu.tar.gz" = true ∧
    (download_binary dwMatch argsBinEx "v0.20.1").1 = Outcome.exc "ValueError" ∧
    Ev.cmd ["tar", "-zxf", "bitcoin-0.20.1-x86_64-linux-gnu.tar.gz", "-C",
        "v0.20.1", "--strip-components=1", "bitcoin-0.20.1"]
      ∉ (download_binary dwMatch argsBinEx "v0.20.1").2 ∧
    Ev.unlink "bitcoin-0.20.1-x86_64-linux-gnu.tar.gz"
      ∉ (download_binary dwMatch argsBinEx "v0.20.1").2 ∧
    Ev.unlink "SHA256SUMS-0.20.1.asc"
      ∉ (download_binary dwMatch argsBinEx "v0.20.1").2 :=
  ⟨by decide, rfl, by decide, by decide, by decide⟩

theorem lastRcSplit_cons (c : Char) (rest : List Char) :
    lastRcSplit (c :: rest) =
      match lastRcSplit rest with
      | some (pre, g) => some (c :: pre, g)
      | none =>
        if c = 'r' ∧ rcNumShape rest = true then some ([], c :: rest)
        else none := by
  simp [lastRcSplit]

theorem lastRcSplit_digits (l : List Char) (h : digitsOnly l = true) :
    lastRcSplit l = none := by
  induction l with
  | nil => rfl
  | cons c rest ih =>
    rw [digitsOnly, List.all_cons, Bool.and_eq_true] at h
    obtain ⟨hc, hrest⟩ := h
    have hr : lastRcSplit rest = none := ih hrest
    have hcr : ¬(c = 'r') := by
      intro hc2
      rw [hc2] at hc
      exact absurd hc (by decide)
    simp [lastRcSplit, hr, hcr]

theorem lastRcSplit_cNum (N : List Char) (h : digitsOnly N = true) :
    lastRcSplit ('c' :: N) = none := by
  have hN := lastRcSplit_digits N h
  simp [lastRcSplit, hN]

theorem lastRcSplit_canonical (x N : List Char) (hN : digitsOnly N = true)
    (hne : N ≠ []) :
    lastRcSplit (x ++ 'r' :: 'c' :: N) = some (x, 'r' :: 'c' :: N) := by
  induction x with
  | nil =>
    obtain ⟨d, ds, rfl⟩ : ∃ d ds, N = d :: ds := by
      cases N with
      | nil => exact absurd rfl hne
      | cons d ds => exact ⟨d, ds, rfl⟩
    have h1 : lastRcSplit ('c' :: d :: ds) = none := lastRcSplit_cNum (d :: ds) hN
    rw [List.nil_append, lastRcSplit_cons, h1]
    simp [rcNumShape, hN]
  | cons a x ih =>
    simp [lastRcSplit, ih]

theorem regexTail_of_no_newline (l : List Char) (h : '\n' ∉ l) :
    regexTail l = l := by
  have hlast : ¬(l.getLast? = some '\n') := by
    intro hc
    obtain ⟨hne, heq⟩ := List.mem_getLast?_eq_getLast hc
    have hm := List.getLast_mem hne
    rw [← heq] at hm
    exact h hm
  have htw : l.reverse.takeWhile (fun c => c ≠ '\n') = l.reverse := by
    refine List.takeWhile_eq_self_iff.mpr ?_
    intro x hx
    have hxl : x ∈ l := List.mem_reverse.mp hx
    simp only [ne_eq, decide_eq_true_eq]
    intro hxe
    rw [hxe] at hxl
    exact h hxl
  show ((if l.getLast? = some '\n' then l.dropLast else l).reverse.takeWhile
      (fun c => c ≠ '\n')).reverse = l
  rw [if_neg hlast, htw, List.reverse_reverse]

theorem no_newline_form (ver N : List Char) (hN : digitsOnly N = true)
    (hver : '\n' ∉ ver) : '\n' ∉ ('v' :: (ver ++ 'r' :: 'c' :: N)) := by
  have hd : ∀ c ∈ N, c.isDigit = true := by
    rw [digitsOnly, List.all_eq_true] at hN
    intro c hc
    exact hN c hc
  intro hmem
  simp only [List.mem_cons, List.mem_append] at hmem
  rcases hmem with h1 | h2 | h3 | h4 | h5
  · exact absurd h1 (by decide)
  · exact hver h2
  · exact absurd h3 (by decide)
  · exact absurd h4 (by decide)
  · exact absurd (hd _ h5) (by decide)

theorem rcSearch_form (ver N : List Char) (hN : digitsOnly N = true)
    (hne : N ≠ []) (hver : '\n' ∉ ver) :
    rcSearch ('v' :: (ver ++ 'r' :: 'c' :: N)) = some (ver, 'r' :: 'c' :: N) := by
  have ht : regexTail ('v' :: (ver ++ 'r' :: 'c' :: N))
      = 'v' :: (ver ++ 'r' :: 'c' :: N) :=
    regexTail_of_no_newline _ (no_newline_form ver N hN hver)
  have h := lastRcSplit_canonical ('v' :: ver) N hN hne
  rw [List.cons_append] at h
  simp [rcSearch, ht, h, dropToV]

theorem binPath_form (ver N : List Char) (hN : digitsOnly N = true)
    (hne : N ≠ []) (hver : '\n' ∉ ver) :
    binPath ('v' :: (ver ++ 'r' :: 'c' :: N)) =
      ("bin/bitcoin-core-".toList ++ ver) ++ ("/test.".toList ++ 'r' :: 'c' :: N) := by
  simp [binPath, rcSearch_form ver N hN hne hver]

/-- C7 counterexample: `xv1rc2` is not of the form `v<version>rc<N>` (it
does not start with `v`), yet because line 42 uses `re.search` the
constructed path still contains a `test.rc` segment — refuting the claim's
"no `test.rc` segment for every tag not of that form" half. -/
theorem c7_counterexample :
    ¬ isRcForm "xv1rc2".toList ∧ "test.rc".toList <:+: binPath "xv1rc2".toList := by
  constructor
  · rintro ⟨ver, N, hN, hne, heq⟩
    have hx : "xv1rc2".toList = 'x' :: "v1rc2".toList := rfl
    rw [hx] at heq
    injection heq with h1 h2
    exact absurd h1 (by decide)
  · decide

/-- C7 as amended: for every tag of the form `v<version>rc<N>` whose
version part contains no newline — newlines are where `re.search` of
`v(.*)(rc[0-9]+)$` deviates from the claimed form, since `.` does not match
a newline and `$` also matches before one trailing newline — the
constructed binary path contains the segment `test.rc<N>`; for every tag on
which the search does not match, the path is exactly
`bin/bitcoin-core-<tag minus its first character>` (so it contains a
`test.rc` segment only when that text already occurs in the tag itself). -/
theorem c7_amended_rc_path :
    (∀ ver N, digitsOnly N = true → N ≠ [] → '\n' ∉ ver →
      ("test.rc".toList ++ N) <:+: binPath ('v' :: (ver ++ 'r' :: 'c' :: N))) ∧
    (∀ tag, rcSearch tag = none →
      binPath tag = "bin/bitcoin-core-".toList ++ tag.drop 1) := by
  constructor
  · intro ver N hN hne hver
    rw [binPath_form ver N hN hne hver]
    refine ⟨"bin/bitcoin-core-".toList ++ ver ++ ['/'], [], ?_⟩
    have h5 : "/test.".toList = '/' :: "test.".toList := rfl
    have h6 : "test.rc".toList = "test.".toList ++ ['r', 'c'] := rfl
    rw [h5, h6]
    simp
  · intro tag h
    simp [binPath, h]

/-- Closed witness for the amended C7: the release-candidate tag
`v0.20.1rc1` produces a path containing `test.rc1`, and the plain tag
`v1.0` keeps the plain path. -/
theorem c7_amended_rc_path_witness :
    ("test.rc".toList ++ ['1']) <:+: binPath "v0.20.1rc1".toList ∧
    binPath "v1.0".toList = "bin/bitcoin-core-".toList ++ "v1.0".toList.drop 1 := by
  constructor
  · have e : "v0.20.1rc1".toList
        = 'v' :: ("0.20.1".toList ++ 'r' :: 'c' :: ['1']) := rfl
    rw [e]
    exact c7_amended_rc_path.1 "0.20.1".toList ['1'] (by decide) (by decide)
      (by decide)
  · exact c7_amended_rc_path.2 "v1.0".toList (by decide)
